import Mathlib

/-!
Verification development for the taskr task-tracking backend.

The data model follows taskr/tasks/models.py, the request handling follows
taskr/tasks/views.py and taskr/users/views.py, and the payload validation
follows taskr/tasks/serializers.py. Persistent state (the Django ORM store)
is embedded as an explicit record of task rows, event-log rows and the sets
of existing user and category primary keys. Timestamps are not modelled;
the chronological order of event-log rows is modelled by list order.
-/

namespace Taskr

/-- Modelled from the spec: taskr/tasks/enums.py is imported by the views,
models and tests but is not present in the sources. The spec fixes the
transport representation of status and priority as integers in the range
one to three, and tasks/views.py reads status 3 as DONE and statuses 1 and 2
as TODO and IN PROGRESS. -/
def STATUS_TODO : Nat := 1

/-- Modelled from the spec: see STATUS_TODO. -/
def STATUS_IN_PROGRESS : Nat := 2

/-- Modelled from the spec: see STATUS_TODO. -/
def STATUS_DONE : Nat := 3

/-- Modelled from the spec: priority scale LOW, with MEDIUM the default. -/
def PRIORITY_LOW : Nat := 1

/-- Modelled from the spec: default priority. -/
def PRIORITY_MEDIUM : Nat := 2

/-- Modelled from the spec: highest priority. -/
def PRIORITY_HIGH : Nat := 3

/-- Event kinds of taskr/tasks/enums.py, as an inductive type. Only the
four kinds named in models.py and views.py exist. -/
inductive Event where
  | created
  | edited
  | assigned
  | statusChanged
deriving DecidableEq

/-- A Task row, following the Task model of taskr/tasks/models.py.
Timestamps are omitted. The category, reporter and assignee fields hold
primary keys of the referenced rows. -/
structure Task where
  id : Nat
  name : String
  description : String
  category : Nat
  priority : Nat
  status : Nat
  reporter : Nat
  assignee : Option Nat
deriving DecidableEq

/-- A TaskEventLog row, following taskr/tasks/models.py. -/
structure TaskEventLog where
  task : Nat
  user : Nat
  event : Event
  description : String
deriving DecidableEq

/-- The durable store: task rows, event-log rows in creation order, the
primary keys of existing users and categories, and the next task primary
key to be handed out. -/
structure Store where
  tasks : List Task
  logs : List TaskEventLog
  users : List Nat
  categories : List Nat
  nextId : Nat
deriving DecidableEq

/-- A client payload for create and update requests. Every field is
optional: `none` means the key is absent from the request body. The
status, reporter and assignee keys can be supplied by the client but are
declared read-only by TaskSerializer. -/
structure TaskPayload where
  name : Option String := none
  description : Option String := none
  category : Option Nat := none
  priority : Option Nat := none
  status : Option Nat := none
  reporter : Option Nat := none
  assignee : Option Nat := none
deriving DecidableEq

/-- Outcome of a request handler, abstracting the HTTP status codes used
in the views: 200 and 201 carry a task, 204 is the no-op outcome, 400 a
validation failure, 404 a missing object. -/
inductive HttpResult (α : Type) where
  | ok (val : α)
  | noContent
  | badRequest
  | notFound
deriving DecidableEq

/-- Validation performed by TaskSerializer (taskr/tasks/serializers.py)
over the writable fields name, description, category, priority. The id,
status, reporter and assignee fields are read-only and never validated.
Field constraints come from the Task model: name is required and at most
300 characters and may not be blank; description may be blank or omitted
and is at most 2000 characters; category must reference an existing
TaskCategory row and is required on create; priority must be one of the
three choices and has a model default, hence is never required. When
`isPartial` is true (update with partial=True) absent fields are accepted. -/
def TaskSerializer_valid (st : Store) (p : TaskPayload) (isPartial : Bool) : Bool :=
  (match p.name with
   | none => isPartial
   | some s => decide (0 < s.length) && decide (s.length ≤ 300)) &&
  (match p.description with
   | none => true
   | some s => decide (s.length ≤ 2000)) &&
  (match p.category with
   | none => isPartial
   | some c => st.categories.contains c) &&
  (match p.priority with
   | none => true
   | some pr => pr == PRIORITY_LOW || pr == PRIORITY_MEDIUM || pr == PRIORITY_HIGH)

/-- Applying validated data to a task instance, as serializer.save does for
TaskSerializer: only the writable fields name, description, category and
priority are written; id, status, reporter and assignee are untouched. -/
def TaskSerializer_apply (t : Task) (p : TaskPayload) : Task :=
  { t with
    name := p.name.getD t.name
    description := p.description.getD t.description
    category := p.category.getD t.category
    priority := p.priority.getD t.priority }

/-- Django primary-key lookup: the first task row with the given id. -/
def getTask (st : Store) (tid : Nat) : Option Task :=
  st.tasks.find? (fun t => t.id == tid)

/-- Saving an existing row: every stored row with the given primary key is
replaced by the new value. -/
def saveTask (st : Store) (tid : Nat) (t2 : Task) : List Task :=
  st.tasks.map (fun u => if u.id == tid then t2 else u)

/-- Number of event-log rows owned by the given task. -/
def logCount (st : Store) (tid : Nat) : Nat :=
  (st.logs.filter (fun e => e.task == tid)).length

/-- TaskListCreate.post of taskr/tasks/views.py: validate the payload with
TaskSerializer, build the task from the validated data so that the
read-only fields take the model defaults of status TODO and assignee null,
then force reporter to the acting user, save, and append a CREATED
event-log row. -/
def TaskListCreate_post (st : Store) (actor : Nat) (p : TaskPayload) : HttpResult Task × Store :=
  if TaskSerializer_valid st p false then
    let t : Task :=
      { id := st.nextId
        name := p.name.getD ""
        description := p.description.getD ""
        category := p.category.getD 0
        priority := p.priority.getD PRIORITY_MEDIUM
        status := STATUS_TODO
        reporter := actor
        assignee := none }
    let log : TaskEventLog :=
      { task := t.id, user := actor, event := Event.created, description := "Task created." }
    (HttpResult.ok t,
      { st with tasks := st.tasks ++ [t], logs := st.logs ++ [log], nextId := st.nextId + 1 })
  else (HttpResult.badRequest, st)

/-- TaskDetail.put of taskr/tasks/views.py: look the task up by primary
key, validate the payload with TaskSerializer allowing omitted fields,
apply the validated data, save, and always append an EDITED event-log
row; there is no check that any field actually changed. -/
def TaskDetail_put (st : Store) (actor : Nat) (tid : Nat) (p : TaskPayload) : HttpResult Task × Store :=
  match getTask st tid with
  | none => (HttpResult.notFound, st)
  | some t =>
    if TaskSerializer_valid st p true then
      let t2 := TaskSerializer_apply t p
      let log : TaskEventLog :=
        { task := tid, user := actor, event := Event.edited, description := "Task edited." }
      (HttpResult.ok t2,
        { st with tasks := saveTask st tid t2, logs := st.logs ++ [log] })
    else (HttpResult.badRequest, st)

/-- TaskDetail.delete of taskr/tasks/views.py: look the task up by primary
key and delete it; the on-delete CASCADE policy of TaskEventLog.task in
models.py removes every event-log row owned by the task. No event is
logged. -/
def TaskDetail_delete (st : Store) (tid : Nat) : HttpResult Nat × Store :=
  match getTask st tid with
  | none => (HttpResult.notFound, st)
  | some _ =>
    (HttpResult.ok tid,
      { st with tasks := st.tasks.filter (fun t => !(t.id == tid)),
                logs := st.logs.filter (fun e => !(e.task == tid)) })

/-- Conversion of a raw string to an integer primary key, as the Python
int constructor does when Django prepares the lookup value: an optional
minus sign followed by one or more decimal digits parses to the integer,
everything else, the empty string included, raises ValueError, which is
represented as `none`. Surrounding whitespace and a plus sign, accepted by
Python, are not exercised by the claims and are treated as failures. -/
def pyInt (s : String) : Option Int :=
  let digits : List Char → Option Nat := fun cs =>
    if cs.isEmpty then none
    else cs.foldl (fun acc c =>
      acc.bind (fun n => if c.isDigit then some (10 * n + (c.toNat - 48)) else none)) (some 0)
  match s.data with
  | '-' :: cs => (digits cs).map (fun n => -(n : Int))
  | cs => (digits cs).map (fun n => (n : Int))

/-- Resolution of the raw user value of TaskAssign.post. The raw value is
the request-body entry under the user key: `none` when the key is absent,
otherwise the supplied string. The view runs get_object_or_404 on the
value inside a try block that catches ValueError only. An absent key gives
pk None, which Django turns into an is-null lookup that matches no user,
hence 404. A string that does not parse as an integer makes int raise
ValueError, which the view treats as unassign. An integer string resolves
to that user when it exists and 404 otherwise. -/
def TaskAssign_resolve (st : Store) (raw : Option String) : Except Unit (Option Nat) :=
  match raw with
  | none => Except.error ()
  | some s =>
    match pyInt s with
    | none => Except.ok none
    | some i =>
      match i with
      | Int.ofNat n => if st.users.contains n then Except.ok (some n) else Except.error ()
      | Int.negSucc _ => Except.error ()

/-- TaskAssign.post of taskr/tasks/views.py: look the task up, resolve the
target user, and compare with the current assignee. Equal target is the
no-op outcome with no write and no log row; otherwise the assignee is set,
the task saved, and one ASSIGNED event-log row appended. The log
description formats the target; usernames are abbreviated here to the
primary key. -/
def TaskAssign_post (st : Store) (actor : Nat) (tid : Nat) (raw : Option String) : HttpResult Task × Store :=
  match getTask st tid with
  | none => (HttpResult.notFound, st)
  | some t =>
    match TaskAssign_resolve st raw with
    | Except.error _ => (HttpResult.notFound, st)
    | Except.ok target =>
      if t.assignee == target then (HttpResult.noContent, st)
      else
        let t2 := { t with assignee := target }
        let log : TaskEventLog :=
          { task := tid, user := actor, event := Event.assigned,
            description := "Task assigned to " ++
              (match target with | none => "None" | some u => toString u) ++ "." }
        (HttpResult.ok t2,
          { st with tasks := saveTask st tid t2, logs := st.logs ++ [log] })

/-- Validation performed by TaskStatusSerializer with omitted fields
allowed: an absent status validates; a present status must be one of the
three choices of the model field. -/
def TaskStatusSerializer_valid (payload : Option Nat) : Bool :=
  match payload with
  | none => true
  | some s => s == STATUS_TODO || s == STATUS_IN_PROGRESS || s == STATUS_DONE

/-- TaskChangeStatus.post of taskr/tasks/views.py: look the task up,
validate the payload with TaskStatusSerializer, and compare the validated
status value with the current status. The comparison is between the raw
lookup result and the stored integer, so an absent status (None) compares
unequal to every stored status and falls through to the save branch, which
keeps the stored status and still appends a STATUS CHANGED event-log row.
An equal present status is the no-op outcome. -/
def TaskChangeStatus_post (st : Store) (actor : Nat) (tid : Nat) (payload : Option Nat) : HttpResult Task × Store :=
  match getTask st tid with
  | none => (HttpResult.notFound, st)
  | some t =>
    if TaskStatusSerializer_valid payload then
      if payload == some t.status then (HttpResult.noContent, st)
      else
        let t2 := { t with status := payload.getD t.status }
        let log : TaskEventLog :=
          { task := tid, user := actor, event := Event.statusChanged,
            description := "Task status changed to " ++ toString t2.status ++ "." }
        (HttpResult.ok t2,
          { st with tasks := saveTask st tid t2, logs := st.logs ++ [log] })
    else (HttpResult.badRequest, st)

/-- The per-user report. -/
structure Report where
  created : Nat
  assigned : Nat
  completed : Nat
  incompleted : Nat
deriving DecidableEq

/-- UserReports.get of taskr/users/views.py, the routed report endpoint:
created counts tasks whose reporter is the user; the assigned, completed
and incompleted counts are derived from the queryset of tasks whose
assignee is the user, filtering it by status DONE and by status in TODO or
IN PROGRESS respectively. Only current task rows are read. -/
def UserReports_get (st : Store) (u : Nat) : Report :=
  let assignedTasks := st.tasks.filter (fun t => t.assignee == some u)
  { created := (st.tasks.filter (fun t => t.reporter == u)).length
    assigned := assignedTasks.length
    completed := (assignedTasks.filter (fun t => t.status == STATUS_DONE)).length
    incompleted :=
      (assignedTasks.filter (fun t => t.status == STATUS_TODO || t.status == STATUS_IN_PROGRESS)).length }

/-- One inbound mutating request, carrying the already-authenticated
acting user and the raw request body. -/
inductive Op where
  | create (actor : Nat) (p : TaskPayload)
  | update (actor : Nat) (tid : Nat) (p : TaskPayload)
  | assign (actor : Nat) (tid : Nat) (raw : Option String)
  | changeStatus (actor : Nat) (tid : Nat) (payload : Option Nat)
  | delete (tid : Nat)
deriving DecidableEq

/-- State transition of one request, discarding the response body. -/
def applyOp (st : Store) : Op → Store
  | Op.create a p => (TaskListCreate_post st a p).2
  | Op.update a tid p => (TaskDetail_put st a tid p).2
  | Op.assign a tid raw => (TaskAssign_post st a tid raw).2
  | Op.changeStatus a tid payload => (TaskChangeStatus_post st a tid payload).2
  | Op.delete tid => (TaskDetail_delete st tid).2

/-- A store with no tasks and no event-log rows, over arbitrary existing
users and categories. -/
def initialStore (users categories : List Nat) : Store :=
  { tasks := [], logs := [], users := users, categories := categories, nextId := 0 }

/-- Stores reachable from an initial store through requests. -/
inductive Reachable : Store → Prop where
  | init (users categories : List Nat) : Reachable (initialStore users categories)
  | step (st : Store) (op : Op) : Reachable st → Reachable (applyOp st op)

/-- Store well-formedness: every task row and log row was handed a primary
key below the next fresh key, and every stored status is one of the three
enum values. -/
def WFb (st : Store) : Bool :=
  st.tasks.all (fun t => t.id < st.nextId) &&
  st.logs.all (fun e => e.task < st.nextId) &&
  st.tasks.all (fun t => t.status == STATUS_TODO || t.status == STATUS_IN_PROGRESS || t.status == STATUS_DONE)

/-- Propositional form of well-formedness. -/
def WF (st : Store) : Prop := WFb st = true

/-- A payload with the read-only keys removed. -/
def scrubPayload (p : TaskPayload) : TaskPayload :=
  { p with status := none, reporter := none, assignee := none }

/-- Builds an event-log row; abbreviation used in theorem statements. -/
def mkLog (tid actor : Nat) (ev : Event) (d : String) : TaskEventLog :=
  { task := tid, user := actor, event := ev, description := d }

/-! Helper lemmas about primary-key lookup, row saving and row filtering. -/

theorem find?_map_update (l : List Task) (tid : Nat) (t2 : Task) (hid : t2.id = tid) :
    (l.map (fun u => if u.id == tid then t2 else u)).find? (fun u => u.id == tid)
      = (l.find? (fun u => u.id == tid)).map (fun _ => t2) := by
  induction l with
  | nil => rfl
  | cons a l ih =>
    by_cases h : a.id = tid
    · have hmap : (a :: l).map (fun u => if u.id == tid then t2 else u)
          = t2 :: l.map (fun u => if u.id == tid then t2 else u) := by simp [h]
      rw [hmap, List.find?_cons_of_pos _ (by simp [hid]),
        List.find?_cons_of_pos _ (by simp [h])]
      rfl
    · have hmap : (a :: l).map (fun u => if u.id == tid then t2 else u)
          = a :: l.map (fun u => if u.id == tid then t2 else u) := by simp [h]
      rw [hmap, List.find?_cons_of_neg _ (by simp [h]),
        List.find?_cons_of_neg _ (by simp [h]), ih]

theorem find?_filter_of_imp {α : Type} (l : List α) (p q : α → Bool)
    (h : ∀ x, p x = true → q x = true) :
    (l.filter q).find? p = l.find? p := by
  induction l with
  | nil => rfl
  | cons a l ih =>
    by_cases hq : q a = true
    · by_cases hp : p a = true
      · simp [List.filter_cons, hq, List.find?_cons, hp]
      · simp only [Bool.not_eq_true] at hp
        simp [List.filter_cons, hq, List.find?_cons, hp, ih]
    · have hp : p a = false := by
        cases hpa : p a with
        | false => rfl
        | true => exact absurd (h a hpa) hq
      simp only [Bool.not_eq_true] at hq
      simp [List.filter_cons, hq, List.find?_cons, hp, ih]

theorem getTask_save (st : Store) (tid : Nat) (t t2 : Task) (logs2 : List TaskEventLog)
    (hget : getTask st tid = some t) (hid : t2.id = tid) :
    getTask { st with tasks := saveTask st tid t2, logs := logs2 } tid = some t2 := by
  unfold getTask saveTask
  simp only
  rw [find?_map_update st.tasks tid t2 hid]
  unfold getTask at hget
  rw [hget]
  rfl

/-!
Claim C1. On create and update, the client-supplied reporter, assignee and
status keys are silently dropped: the handlers behave identically on the
scrubbed payload; a created task has reporter equal to the acting user,
status TODO and assignee null; an updated task keeps its id, status,
reporter and assignee.
-/

/-- C1: for every store, actor and payload, create and update ignore the
read-only keys of the payload; every successfully created task has
reporter equal to the acting user, status TODO and assignee null; every
successful update leaves id, status, reporter and assignee of the stored
task untouched. -/
theorem C1_privileged_fields_dropped (st : Store) (actor : Nat) (p : TaskPayload) :
    (TaskListCreate_post st actor p = TaskListCreate_post st actor (scrubPayload p)) ∧
    (∀ tid, TaskDetail_put st actor tid p = TaskDetail_put st actor tid (scrubPayload p)) ∧
    (∀ t, (TaskListCreate_post st actor p).1 = HttpResult.ok t →
      t.reporter = actor ∧ t.status = STATUS_TODO ∧ t.assignee = none) ∧
    (∀ tid t t2, getTask st tid = some t →
      (TaskDetail_put st actor tid p).1 = HttpResult.ok t2 →
      t2.id = t.id ∧ t2.status = t.status ∧ t2.reporter = t.reporter ∧
        t2.assignee = t.assignee) := by
  obtain ⟨n, d, c, pr, s, r, a⟩ := p
  refine ⟨rfl, fun _ => rfl, ?_, ?_⟩
  · intro t h
    unfold TaskListCreate_post at h
    split at h
    · simp only at h
      cases h
      exact ⟨rfl, rfl, rfl⟩
    · simp at h
  · intro tid t t2 hget h
    unfold TaskDetail_put at h
    rw [hget] at h
    simp only at h
    split at h
    · simp only at h
      cases h
      exact ⟨rfl, rfl, rfl, rfl⟩
    · simp at h

/-- Concrete store for the C1 witness. -/
def stC1 : Store := initialStore [7, 9] [5]

/-- Concrete payload for the C1 witness, mirroring the create scenario of
the spec: the client also supplies status DONE and a foreign reporter and
assignee. -/
def pC1 : TaskPayload :=
  { name := some "Test Task 1", description := some "Do this task first",
    category := some 5, priority := some PRIORITY_MEDIUM,
    status := some STATUS_DONE, reporter := some 9, assignee := some 9 }

/-- The task produced by the C1 witness create call. -/
def tC1 : Task :=
  { id := 0, name := "Test Task 1", description := "Do this task first",
    category := 5, priority := PRIORITY_MEDIUM, status := STATUS_TODO,
    reporter := 7, assignee := none }

/-- C1 witness: the scenario create call succeeds and the created task has
reporter 7, status TODO and assignee null although the payload supplied
status DONE and user 9 for reporter and assignee. -/
theorem C1_privileged_fields_dropped_witness :
    (TaskListCreate_post stC1 7 pC1).1 = HttpResult.ok tC1 ∧
    (tC1.reporter = 7 ∧ tC1.status = STATUS_TODO ∧ tC1.assignee = none) :=
  ⟨by decide, (C1_privileged_fields_dropped stC1 7 pC1).2.2.1 tC1 (by decide)⟩

/-!
Claim C7. Assign is idempotent on the current assignee: when the raw
target resolves to the current assignee, the call is a no-op outcome, the
store is unchanged, the log gains no row, and a second identical call is a
no-op again.
-/

/-- C7: a raw target resolving to the current assignee, including both
null, makes assign a no-op outcome with the store unchanged and zero new
event-log rows, twice in a row. -/
theorem C7_assign_idempotent (st : Store) (actor tid : Nat) (t : Task) (raw : Option String)
    (hget : getTask st tid = some t)
    (hres : TaskAssign_resolve st raw = Except.ok t.assignee) :
    TaskAssign_post st actor tid raw = (HttpResult.noContent, st) ∧
    TaskAssign_post (TaskAssign_post st actor tid raw).2 actor tid raw
      = (HttpResult.noContent, st) ∧
    logCount (TaskAssign_post st actor tid raw).2 tid = logCount st tid := by
  have h1 : TaskAssign_post st actor tid raw = (HttpResult.noContent, st) := by
    unfold TaskAssign_post
    rw [hget, hres]
    simp
  refine ⟨h1, ?_, ?_⟩
  · rw [h1]
    exact h1
  · rw [h1]

/-- Concrete store for the C7 witness: one task, currently unassigned. -/
def stC7 : Store :=
  (TaskListCreate_post (initialStore [7] [5]) 7
    { name := some "some task", category := some 5 }).2

/-- The single task of the C7 witness store. -/
def tC7 : Task :=
  { id := 0, name := "some task", description := "", category := 5,
    priority := PRIORITY_MEDIUM, status := STATUS_TODO, reporter := 7,
    assignee := none }

/-- C7 witness: assigning no user, via an empty identifier, to an
unassigned task is a no-op outcome with the store unchanged, twice over. -/
theorem C7_assign_idempotent_witness :
    TaskAssign_post stC7 7 0 (some "") = (HttpResult.noContent, stC7) ∧
    TaskAssign_post (TaskAssign_post stC7 7 0 (some "")).2 7 0 (some "")
      = (HttpResult.noContent, stC7) ∧
    logCount (TaskAssign_post stC7 7 0 (some "")).2 0 = logCount stC7 0 :=
  C7_assign_idempotent stC7 7 0 tC7 (some "") (by decide) (by rfl)

/-!
Claim C9. A valid update always appends exactly one EDITED event-log row,
even when the supplied fields equal the current values.
-/

/-- C9: every valid update call on an existing task appends exactly one
EDITED event-log row, with no check that any field changed. -/
theorem C9_update_always_logs (st : Store) (actor tid : Nat) (t : Task) (p : TaskPayload)
    (hget : getTask st tid = some t) (hvalid : TaskSerializer_valid st p true = true) :
    (TaskDetail_put st actor tid p).2.logs =
      st.logs ++ [mkLog tid actor Event.edited "Task edited."] ∧
    logCount (TaskDetail_put st actor tid p).2 tid = logCount st tid + 1 := by
  have h2 : TaskDetail_put st actor tid p =
      (HttpResult.ok (TaskSerializer_apply t p),
        { st with tasks := saveTask st tid (TaskSerializer_apply t p),
                  logs := st.logs ++ [mkLog tid actor Event.edited "Task edited."] }) := by
    unfold TaskDetail_put
    rw [hget]
    simp [hvalid]
    rfl
  rw [h2]
  refine ⟨rfl, ?_⟩
  unfold logCount
  simp [List.filter_append, mkLog]

/-- Concrete store for the C9 witness: one task. -/
def stC9 : Store :=
  (TaskListCreate_post (initialStore [7] [5]) 7
    { name := some "some task", description := some "some description",
      category := some 5 }).2

/-- The single task of the C9 witness store. -/
def tC9 : Task :=
  { id := 0, name := "some task", description := "some description", category := 5,
    priority := PRIORITY_MEDIUM, status := STATUS_TODO, reporter := 7,
    assignee := none }

/-- A C9 witness payload that repeats exactly the current field values. -/
def pC9 : TaskPayload :=
  { name := some "some task", description := some "some description",
    category := some 5, priority := some PRIORITY_MEDIUM }

/-- C9 witness: updating with fields equal to the current values still
appends one EDITED event-log row; the payload indeed changes nothing. -/
theorem C9_update_always_logs_witness :
    TaskSerializer_apply tC9 pC9 = tC9 ∧
    logCount (TaskDetail_put stC9 7 0 pC9).2 0 = logCount stC9 0 + 1 :=
  ⟨by decide, (C9_update_always_logs stC9 7 0 tC9 pC9 (by decide) (by decide)).2⟩

/-!
Claim C10. A change-status request with no status key validates, is not a
no-op, saves the task with its status unchanged and still appends one
STATUS CHANGED event-log row.
-/

/-- C10: on an existing task, a change-status call with an absent status
validates and is answered with the updated task, the stored status is
unchanged, and exactly one STATUS CHANGED event-log row is appended. -/
theorem C10_absent_status_still_logs (st : Store) (actor tid : Nat) (t : Task)
    (hget : getTask st tid = some t) :
    TaskStatusSerializer_valid none = true ∧
    (∃ t2, (TaskChangeStatus_post st actor tid none).1 = HttpResult.ok t2 ∧
      t2.status = t.status) ∧
    getTask (TaskChangeStatus_post st actor tid none).2 tid = some { t with status := t.status } ∧
    (TaskChangeStatus_post st actor tid none).2.logs =
      st.logs ++ [mkLog tid actor Event.statusChanged
        ("Task status changed to " ++ toString t.status ++ ".")] := by
  have hid : t.id = tid := by
    have := List.find?_some hget
    simpa using this
  have h2 : TaskChangeStatus_post st actor tid none =
      (HttpResult.ok { t with status := t.status },
        { st with tasks := saveTask st tid { t with status := t.status },
                  logs := st.logs ++ [mkLog tid actor Event.statusChanged
                    ("Task status changed to " ++ toString t.status ++ ".")] }) := by
    unfold TaskChangeStatus_post
    rw [hget]
    simp [TaskStatusSerializer_valid, Option.getD, mkLog]
  rw [h2]
  refine ⟨rfl, ⟨{ t with status := t.status }, rfl, rfl⟩, ?_, rfl⟩
  exact getTask_save st tid t { t with status := t.status } _ hget hid

/-- Concrete store for the C10 witness: one task with status TODO. -/
def stC10 : Store :=
  (TaskListCreate_post (initialStore [7] [5]) 7
    { name := some "some task", category := some 5 }).2

/-- The single task of the C10 witness store. -/
def tC10 : Task :=
  { id := 0, name := "some task", description := "", category := 5,
    priority := PRIORITY_MEDIUM, status := STATUS_TODO, reporter := 7,
    assignee := none }

/-- C10 witness: the absent-status call on the witness store keeps status
TODO and appends one STATUS CHANGED row. -/
theorem C10_absent_status_still_logs_witness :
    TaskStatusSerializer_valid none = true ∧
    (∃ t2, (TaskChangeStatus_post stC10 7 0 none).1 = HttpResult.ok t2 ∧
      t2.status = tC10.status) ∧
    getTask (TaskChangeStatus_post stC10 7 0 none).2 0 = some { tC10 with status := tC10.status } ∧
    (TaskChangeStatus_post stC10 7 0 none).2.logs =
      stC10.logs ++ [mkLog 0 7 Event.statusChanged
        ("Task status changed to " ++ toString tC10.status ++ ".")] :=
  C10_absent_status_still_logs stC10 7 0 tC10 (by decide)

/-!
Claim C3. Change-status rejects a status outside the three enum values
with a validation failure, is a no-op outcome on the current status, and
for every distinct pair of statuses succeeds, sets the new status and
appends exactly one STATUS CHANGED event-log row.
-/

/-- C3: for an existing task whose stored status is one of the three enum
values, change-status rejects any other supplied value with a validation
failure and no state change, answers the current status with the no-op
outcome and no state change, and for every valid distinct status succeeds,
stores the new status and appends exactly one STATUS CHANGED row. -/
theorem C3_changeStatus_contract (st : Store) (actor tid : Nat) (t : Task)
    (hget : getTask st tid = some t)
    (hstat : t.status = STATUS_TODO ∨ t.status = STATUS_IN_PROGRESS ∨ t.status = STATUS_DONE) :
    (∀ s, ¬(s = STATUS_TODO ∨ s = STATUS_IN_PROGRESS ∨ s = STATUS_DONE) →
      TaskChangeStatus_post st actor tid (some s) = (HttpResult.badRequest, st)) ∧
    TaskChangeStatus_post st actor tid (some t.status) = (HttpResult.noContent, st) ∧
    (∀ s, (s = STATUS_TODO ∨ s = STATUS_IN_PROGRESS ∨ s = STATUS_DONE) → s ≠ t.status →
      (TaskChangeStatus_post st actor tid (some s)).1 = HttpResult.ok { t with status := s } ∧
      getTask (TaskChangeStatus_post st actor tid (some s)).2 tid = some { t with status := s } ∧
      (TaskChangeStatus_post st actor tid (some s)).2.logs =
        st.logs ++ [mkLog tid actor Event.statusChanged
          ("Task status changed to " ++ toString s ++ ".")]) := by
  have hid : t.id = tid := by
    have := List.find?_some hget
    simpa using this
  refine ⟨?_, ?_, ?_⟩
  · intro s hs
    push_neg at hs
    have hv : TaskStatusSerializer_valid (some s) = false := by
      simp [TaskStatusSerializer_valid, hs.1, hs.2.1, hs.2.2]
    unfold TaskChangeStatus_post
    rw [hget]
    simp [hv]
  · have hv : TaskStatusSerializer_valid (some t.status) = true := by
      rcases hstat with h | h | h <;> simp [TaskStatusSerializer_valid, h]
    unfold TaskChangeStatus_post
    rw [hget]
    simp [hv]
  · intro s hsv hne
    have hv : TaskStatusSerializer_valid (some s) = true := by
      rcases hsv with h | h | h <;> simp [TaskStatusSerializer_valid, h]
    have heq : (some s == some t.status) = false := by simp [hne]
    have h2 : TaskChangeStatus_post st actor tid (some s) =
        (HttpResult.ok { t with status := s },
          { st with tasks := saveTask st tid { t with status := s },
                    logs := st.logs ++ [mkLog tid actor Event.statusChanged
                      ("Task status changed to " ++ toString s ++ ".")] }) := by
      unfold TaskChangeStatus_post
      rw [hget]
      simp [hv, hne, mkLog, Option.getD]
    rw [h2]
    exact ⟨rfl, getTask_save st tid t { t with status := s } _ hget hid, rfl⟩

/-- Concrete store for the C3 witness: one task with status TODO. -/
def stC3 : Store :=
  (TaskListCreate_post (initialStore [7] [5]) 7
    { name := some "some task", category := some 5 }).2

/-- The single task of the C3 witness store. -/
def tC3 : Task :=
  { id := 0, name := "some task", description := "", category := 5,
    priority := PRIORITY_MEDIUM, status := STATUS_TODO, reporter := 7,
    assignee := none }

/-- C3 witness: status 12 is rejected, repeating status TODO is a no-op,
and the transition TODO to IN PROGRESS stores the new status. -/
theorem C3_changeStatus_contract_witness :
    TaskChangeStatus_post stC3 7 0 (some 12) = (HttpResult.badRequest, stC3) ∧
    TaskChangeStatus_post stC3 7 0 (some STATUS_TODO) = (HttpResult.noContent, stC3) ∧
    getTask (TaskChangeStatus_post stC3 7 0 (some STATUS_IN_PROGRESS)).2 0
      = some { tC3 with status := STATUS_IN_PROGRESS } := by
  have h := C3_changeStatus_contract stC3 7 0 tC3 (by decide) (by decide)
  refine ⟨h.1 12 (by decide), ?_, (h.2.2 STATUS_IN_PROGRESS (by decide) (by decide)).2.1⟩
  have := h.2.1
  exact this

/-!
Claim C6. Delete removes the task and all of its event-log rows, appends
no row, leaves other tasks and their rows alone, and is NotFound on a
missing id.
-/

/-- C6: deleting a missing id is NotFound with the store unchanged;
deleting an existing task succeeds, removes the task, brings its event-log
count to exactly zero and changes neither the rows nor the log counts of
any other task. -/
theorem C6_delete_cascades (st : Store) (tid : Nat) :
    (getTask st tid = none → TaskDetail_delete st tid = (HttpResult.notFound, st)) ∧
    (∀ t, getTask st tid = some t →
      (TaskDetail_delete st tid).1 = HttpResult.ok tid ∧
      getTask (TaskDetail_delete st tid).2 tid = none ∧
      logCount (TaskDetail_delete st tid).2 tid = 0 ∧
      (∀ j, j ≠ tid → logCount (TaskDetail_delete st tid).2 j = logCount st j ∧
        getTask (TaskDetail_delete st tid).2 j = getTask st j)) := by
  constructor
  · intro h
    unfold TaskDetail_delete
    rw [h]
  · intro t hget
    have h2 : TaskDetail_delete st tid =
        (HttpResult.ok tid,
          { st with tasks := st.tasks.filter (fun u => !(u.id == tid)),
                    logs := st.logs.filter (fun e => !(e.task == tid)) }) := by
      unfold TaskDetail_delete
      rw [hget]
    rw [h2]
    refine ⟨rfl, ?_, ?_, ?_⟩
    · unfold getTask
      simp only
      rw [List.find?_eq_none]
      intro x hx
      have := (List.mem_filter.mp hx).2
      simpa using this
    · unfold logCount
      simp only
      rw [List.filter_filter]
      have : ∀ e ∈ st.logs, ((e.task == tid) && !(e.task == tid)) = (fun _ => false) e := by
        intro e _
        simp
      rw [List.filter_congr this, List.filter_false]
      rfl
    · intro j hj
      constructor
      · unfold logCount
        simp only
        rw [List.filter_filter]
        have : ∀ e ∈ st.logs, ((e.task == j) && !(e.task == tid)) = (e.task == j) := by
          intro e _
          by_cases h : e.task = j
          · subst h
            simp [hj]
          · simp [h]
        rw [List.filter_congr this]
      · unfold getTask
        simp only
        exact find?_filter_of_imp st.tasks _ _ (by
          intro x hx
          simp only [beq_iff_eq] at hx
          simp [hx, hj])

/-- Concrete store for the C6 witness: one task with two event-log rows. -/
def stC6 : Store :=
  (TaskDetail_put (TaskListCreate_post (initialStore [7] [5]) 7
    { name := some "some task", category := some 5 }).2 7 0
    { priority := some PRIORITY_HIGH }).2

/-- The single task of the C6 witness store, after its priority update. -/
def tC6 : Task :=
  { id := 0, name := "some task", description := "", category := 5,
    priority := PRIORITY_HIGH, status := STATUS_TODO, reporter := 7,
    assignee := none }

/-- C6 witness: the witness task has two event-log rows before deletion
and zero after, it is gone from the store, and deleting id 3 is NotFound. -/
theorem C6_delete_cascades_witness :
    logCount stC6 0 = 2 ∧
    getTask (TaskDetail_delete stC6 0).2 0 = none ∧
    logCount (TaskDetail_delete stC6 0).2 0 = 0 ∧
    TaskDetail_delete stC6 3 = (HttpResult.notFound, stC6) := by
  have h := C6_delete_cascades stC6 0
  exact ⟨by decide, (h.2 tC6 (by decide)).2.1, (h.2 tC6 (by decide)).2.2.1,
    (C6_delete_cascades stC6 3).1 (by decide)⟩

/-! Well-formedness is an invariant of the request handlers. -/

theorem wf_spec (st : Store) : WF st ↔
    (∀ t ∈ st.tasks, t.id < st.nextId) ∧
    (∀ e ∈ st.logs, e.task < st.nextId) ∧
    (∀ t ∈ st.tasks,
      t.status = STATUS_TODO ∨ t.status = STATUS_IN_PROGRESS ∨ t.status = STATUS_DONE) := by
  unfold WF WFb
  simp [List.all_eq_true, STATUS_TODO, STATUS_IN_PROGRESS, STATUS_DONE, and_assoc, or_assoc]

theorem mem_saveTask (st : Store) (tid : Nat) (t2 u : Task)
    (hu : u ∈ saveTask st tid t2) : u = t2 ∨ u ∈ st.tasks := by
  unfold saveTask at hu
  rcases List.mem_map.mp hu with ⟨v, hv, hfv⟩
  by_cases hvc : v.id = tid
  · simp [hvc] at hfv
    exact Or.inl hfv.symm
  · simp [hvc] at hfv
    exact Or.inr (hfv ▸ hv)

theorem wf_save_log (st : Store) (tid : Nat) (t t2 : Task) (lg : TaskEventLog)
    (hget : getTask st tid = some t)
    (hid : t2.id = t.id)
    (hstatus : t2.status = t.status ∨ t2.status = STATUS_TODO ∨
      t2.status = STATUS_IN_PROGRESS ∨ t2.status = STATUS_DONE)
    (hlg : lg.task = tid) (h : WF st) :
    WF { st with tasks := saveTask st tid t2, logs := st.logs ++ [lg] } := by
  rw [wf_spec] at h ⊢
  obtain ⟨h1, h2, h3⟩ := h
  have hmem : t ∈ st.tasks := List.mem_of_find?_eq_some hget
  have htid : t.id = tid := by simpa using List.find?_some hget
  refine ⟨?_, ?_, ?_⟩
  · intro u hu
    rcases mem_saveTask st tid t2 u hu with hu | hu
    · rw [hu, hid]
      exact h1 t hmem
    · exact h1 u hu
  · intro e he
    rcases List.mem_append.mp he with he | he
    · exact h2 e he
    · simp only [List.mem_singleton] at he
      rw [he, hlg, ← htid]
      exact h1 t hmem
  · intro u hu
    rcases mem_saveTask st tid t2 u hu with hu | hu
    · rcases hstatus with hs | hs | hs | hs
      · rw [hu, hs]
        exact h3 t hmem
      all_goals rw [hu, hs]
      · exact Or.inl rfl
      · exact Or.inr (Or.inl rfl)
      · exact Or.inr (Or.inr rfl)
    · exact h3 u hu

theorem wf_applyOp (st : Store) (op : Op) (h : WF st) : WF (applyOp st op) := by
  cases op with
  | create a p =>
    simp only [applyOp]
    unfold TaskListCreate_post
    split
    · dsimp only
      rw [wf_spec] at h ⊢
      obtain ⟨h1, h2, h3⟩ := h
      refine ⟨?_, ?_, ?_⟩
      · intro t ht
        rcases List.mem_append.mp ht with ht | ht
        · exact Nat.lt_succ_of_lt (h1 t ht)
        · simp only [List.mem_singleton] at ht
          rw [ht]
          exact Nat.lt_succ_self _
      · intro e he
        rcases List.mem_append.mp he with he | he
        · exact Nat.lt_succ_of_lt (h2 e he)
        · simp only [List.mem_singleton] at he
          rw [he]
          exact Nat.lt_succ_self _
      · intro t ht
        rcases List.mem_append.mp ht with ht | ht
        · exact h3 t ht
        · simp only [List.mem_singleton] at ht
          rw [ht]
          exact Or.inl rfl
    · exact h
  | update a tid p =>
    simp only [applyOp]
    unfold TaskDetail_put
    cases hg : getTask st tid with
    | none => exact h
    | some t =>
      simp only
      split
      · exact wf_save_log st tid t (TaskSerializer_apply t p) _ hg rfl
          (Or.inl rfl) rfl h
      · exact h
  | assign a tid raw =>
    simp only [applyOp]
    unfold TaskAssign_post
    cases hg : getTask st tid with
    | none => exact h
    | some t =>
      simp only
      cases hr : TaskAssign_resolve st raw with
      | error _ => exact h
      | ok target =>
        simp only
        split
        · exact h
        · exact wf_save_log st tid t { t with assignee := target } _ hg rfl
            (Or.inl rfl) rfl h
  | changeStatus a tid payload =>
    simp only [applyOp]
    unfold TaskChangeStatus_post
    cases hg : getTask st tid with
    | none => exact h
    | some t =>
      simp only
      split
      · split
        · exact h
        · apply wf_save_log st tid t { t with status := payload.getD t.status } _ hg rfl _ rfl h
          cases payload with
          | none => exact Or.inl rfl
          | some s =>
            rename_i hv _
            simp only [TaskStatusSerializer_valid, STATUS_TODO, STATUS_IN_PROGRESS,
              STATUS_DONE] at hv
            simp only [Option.getD_some]
            rcases Bool.or_eq_true_iff.mp hv with hv2 | hv2
            · rcases Bool.or_eq_true_iff.mp hv2 with hv3 | hv3
              · exact Or.inr (Or.inl (by simpa [STATUS_TODO] using hv3))
              · exact Or.inr (Or.inr (Or.inl (by simpa [STATUS_IN_PROGRESS] using hv3)))
            · exact Or.inr (Or.inr (Or.inr (by simpa [STATUS_DONE] using hv2)))
      · exact h
  | delete tid =>
    simp only [applyOp]
    unfold TaskDetail_delete
    cases hg : getTask st tid with
    | none => exact h
    | some t =>
      dsimp only
      rw [wf_spec] at h ⊢
      obtain ⟨h1, h2, h3⟩ := h
      refine ⟨?_, ?_, ?_⟩
      · intro u hu
        exact h1 u (List.mem_filter.mp hu).1
      · intro e he
        exact h2 e (List.mem_filter.mp he).1
      · intro u hu
        exact h3 u (List.mem_filter.mp hu).1

theorem reachable_wf (st : Store) (h : Reachable st) : WF st := by
  induction h with
  | init users categories => rfl
  | step st op _ ih => exact wf_applyOp st op ih

/-! Counting lemmas on event-log rows. -/

theorem filterCount_append (l : List TaskEventLog) (lg : TaskEventLog) (tid : Nat) :
    ((l ++ [lg]).filter (fun e => e.task == tid)).length
      = (l.filter (fun e => e.task == tid)).length + (if lg.task = tid then 1 else 0) := by
  rw [List.filter_append]
  by_cases h : lg.task = tid <;> simp [List.filter_cons, h]

theorem count_erase_self (l : List TaskEventLog) (tid : Nat) :
    ((l.filter (fun e => !(e.task == tid))).filter (fun e => e.task == tid)).length = 0 := by
  rw [List.filter_filter]
  have h : ∀ e ∈ l, ((e.task == tid) && !(e.task == tid))
      = (fun (_ : TaskEventLog) => false) e := by
    intro e _
    simp
  rw [List.filter_congr h, List.filter_false]
  rfl

theorem count_erase_other (l : List TaskEventLog) (tid j : Nat) (hj : j ≠ tid) :
    ((l.filter (fun e => !(e.task == tid))).filter (fun e => e.task == j)).length
      = (l.filter (fun e => e.task == j)).length := by
  rw [List.filter_filter]
  have h : ∀ e ∈ l, ((e.task == j) && !(e.task == tid)) = (e.task == j) := by
    intro e _
    by_cases hc : e.task = j
    · subst hc
      simp [hj]
    · simp [hc]
  rw [List.filter_congr h]

/-!
Claim C2. The amended counting rule for event-log rows, one request at a
time: a request on a store deletes every row of the deleted task, and any
other request adds to a task exactly one row when it is a successful
create of that task, a successful update of it, an assign that changes its
assignee, or a validated change-status call whose supplied value, null
when the status key is absent, differs from the current status; every
other outcome adds zero rows.
-/

/-- Whether the request removes the given task together with its rows. -/
def opDeletes (st : Store) (op : Op) (tid : Nat) : Bool :=
  match op with
  | Op.delete t => t == tid && (getTask st t).isSome
  | _ => false

/-- The number of event-log rows the amended claim predicts the request
adds to the given task: one for a successful create of it, one for a
successful update of it, one for an assign that changes its assignee, one
for a validated change-status call whose supplied value, null when
absent, differs from the current status; zero otherwise. -/
def mutatingDelta (st : Store) (op : Op) (tid : Nat) : Nat :=
  match op with
  | Op.create _ p =>
      if TaskSerializer_valid st p false && st.nextId == tid then 1 else 0
  | Op.update _ t p =>
      if t == tid && (getTask st t).isSome && TaskSerializer_valid st p true then 1 else 0
  | Op.assign _ t raw =>
      if t == tid then
        match getTask st t with
        | none => 0
        | some tk =>
          match TaskAssign_resolve st raw with
          | Except.error _ => 0
          | Except.ok target => if tk.assignee == target then 0 else 1
      else 0
  | Op.changeStatus _ t payload =>
      if t == tid then
        match getTask st t with
        | none => 0
        | some tk =>
          if TaskStatusSerializer_valid payload && !(payload == some tk.status) then 1 else 0
      else 0
  | Op.delete _ => 0

/-- C2 (amended): on every reachable store, a delete request zeroes the
event-log count of the deleted task, and every other request changes the
count of every task by exactly the predicted number of rows; moreover a
task about to be created starts with zero rows, so a successful create
leaves it with exactly one. -/
theorem C2_log_count_invariant (st : Store) (h : Reachable st) :
    (∀ op tid, logCount (applyOp st op) tid =
      if opDeletes st op tid then 0
      else logCount st tid + mutatingDelta st op tid) ∧
    logCount st st.nextId = 0 := by
  have hwf := (wf_spec st).mp (reachable_wf st h)
  constructor
  · intro op tid
    cases op with
    | create a p =>
      simp only [applyOp, opDeletes, mutatingDelta]
      unfold TaskListCreate_post
      by_cases hv : TaskSerializer_valid st p false = true
      · simp only [hv, if_true, Bool.true_and]
        unfold logCount
        dsimp only
        rw [filterCount_append]
        by_cases hn : st.nextId = tid <;> simp [hn]
      · simp only [Bool.not_eq_true] at hv
        simp [hv, logCount]
    | update a t p =>
      simp only [applyOp, opDeletes, mutatingDelta]
      unfold TaskDetail_put
      cases hg : getTask st t with
      | none => simp [logCount]
      | some tk =>
        by_cases hv : TaskSerializer_valid st p true = true
        · simp only [hv, if_true]
          unfold logCount
          dsimp only
          rw [filterCount_append]
          by_cases ht : t = tid <;> simp [ht, hv]
        · simp only [Bool.not_eq_true] at hv
          simp [hv, logCount]
    | assign a t raw =>
      simp only [applyOp, opDeletes, mutatingDelta]
      unfold TaskAssign_post
      cases hg : getTask st t with
      | none => simp [logCount]
      | some tk =>
        cases hr : TaskAssign_resolve st raw with
        | error u => simp [logCount]
        | ok target =>
          by_cases ha : tk.assignee = target
          · simp [ha, logCount]
          · have ha2 : (tk.assignee == target) = false := by simp [ha]
            simp only [ha2, Bool.false_eq_true, if_false]
            unfold logCount
            dsimp only
            rw [filterCount_append]
            by_cases ht : t = tid <;> simp [ht]
    | changeStatus a t payload =>
      simp only [applyOp, opDeletes, mutatingDelta]
      unfold TaskChangeStatus_post
      cases hg : getTask st t with
      | none => simp [logCount]
      | some tk =>
        by_cases hv : TaskStatusSerializer_valid payload = true
        · by_cases he : payload = some tk.status
          · subst he
            simp [hv, logCount]
          · have he2 : (payload == some tk.status) = false := by simp [he]
            simp only [hv, he2, if_true, Bool.false_eq_true, if_false,
              Bool.not_false, Bool.true_and]
            unfold logCount
            dsimp only
            rw [filterCount_append]
            by_cases ht : t = tid <;> simp [ht]
        · simp only [Bool.not_eq_true] at hv
          simp [hv, logCount]
    | delete t =>
      simp only [applyOp, opDeletes, mutatingDelta]
      unfold TaskDetail_delete
      cases hg : getTask st t with
      | none => simp [logCount]
      | some tk =>
        by_cases ht : t = tid
        · subst ht
          simp only [Option.isSome_some, Bool.and_true, beq_self_eq_true, if_true]
          unfold logCount
          dsimp only
          exact count_erase_self st.logs t
        · have ht2 : (t == tid) = false := by simp [ht]
          simp only [ht2, Bool.false_and, Bool.false_eq_true, if_false]
          unfold logCount
          dsimp only
          rw [count_erase_other st.logs t tid (Ne.symm ht)]
          simp
  · unfold logCount
    have hnil : st.logs.filter (fun e => e.task == st.nextId) = [] := by
      rw [List.filter_eq_nil_iff]
      intro e he
      have := hwf.2.1 e he
      simp only [beq_iff_eq]
      omega
    rw [hnil]
    rfl

/-- Concrete initial store for the C2 witness and counterexample. -/
def stC2init : Store := initialStore [7] [5]

/-- The create request of the C2 witness. -/
def opC2 : Op := Op.create 7 { name := some "some task", category := some 5 }

/-- C2 witness: on the concrete reachable initial store, the create
request adds exactly the predicted one row to task 0. -/
theorem C2_log_count_invariant_witness :
    logCount (applyOp stC2init opC2) 0 =
      if opDeletes stC2init opC2 0 then 0
      else logCount stC2init 0 + mutatingDelta stC2init opC2 0 :=
  (C2_log_count_invariant stC2init (Reachable.init [7] [5])).1 opC2 0

/-- The C2 counterexample store: exactly one task, created by user 7. -/
def stC2 : Store := applyOp stC2init opC2

/-- The single task of the C2 counterexample store. -/
def tC2 : Task :=
  { id := 0, name := "some task", description := "", category := 5,
    priority := PRIORITY_MEDIUM, status := STATUS_TODO, reporter := 7,
    assignee := none }

/-- C2 counterexample to the claim as stated: after the create, task 0
owns one row; a change-status request whose body has no status key is
then applied. It is not an update, not an assign, and does not change the
status to a different value, and its outcome is not a no-op, yet the
task ends with two rows where the stated counting rule predicts one. -/
theorem C2_counterexample :
    logCount stC2 0 = 1 ∧
    (getTask stC2 0).map Task.status = some STATUS_TODO ∧
    (∃ t2, (TaskChangeStatus_post stC2 7 0 none).1 = HttpResult.ok t2) ∧
    (getTask (TaskChangeStatus_post stC2 7 0 none).2 0).map Task.status = some STATUS_TODO ∧
    logCount (TaskChangeStatus_post stC2 7 0 none).2 0 = 2 := by
  exact ⟨by decide, by decide, ⟨tC2, by decide⟩, by decide, by decide⟩

/-!
Claim C8. On every reachable store the report satisfies
completed plus incompleted equals assigned, because every stored status is
one of the three enum values.
-/

theorem status_count_partition : ∀ l : List Task,
    (∀ t ∈ l, t.status = STATUS_TODO ∨ t.status = STATUS_IN_PROGRESS ∨ t.status = STATUS_DONE) →
    (l.filter (fun t => t.status == STATUS_DONE)).length
      + (l.filter (fun t => t.status == STATUS_TODO || t.status == STATUS_IN_PROGRESS)).length
      = l.length := by
  intro l
  induction l with
  | nil => intro _; rfl
  | cons a l ih =>
    intro h
    have ha := h a (List.mem_cons_self a l)
    have hl := ih (fun t ht => h t (List.mem_cons_of_mem a ht))
    simp only [STATUS_TODO, STATUS_IN_PROGRESS, STATUS_DONE] at ha hl ⊢
    rcases ha with h1 | h1 | h1 <;> simp [List.filter_cons, h1] <;> omega

/-- C8: on every reachable store and for every user, the report counts
satisfy completed plus incompleted equals assigned, since every stored
status is one of the three enum values. -/
theorem C8_completed_plus_incompleted (st : Store) (u : Nat) (h : Reachable st) :
    (UserReports_get st u).completed + (UserReports_get st u).incompleted
      = (UserReports_get st u).assigned := by
  have hwf := (wf_spec st).mp (reachable_wf st h)
  unfold UserReports_get
  dsimp only
  apply status_count_partition
  intro t ht
  exact hwf.2.2 t (List.mem_filter.mp ht).1

/-- C8 witness: the partition identity holds at a concrete reachable
store, obtained by one create and one assign. -/
theorem C8_completed_plus_incompleted_witness :
    (UserReports_get (applyOp (applyOp (initialStore [7] [5])
        (Op.create 7 { name := some "some task", category := some 5 }))
        (Op.assign 7 0 (some "7"))) 7).completed
      + (UserReports_get (applyOp (applyOp (initialStore [7] [5])
        (Op.create 7 { name := some "some task", category := some 5 }))
        (Op.assign 7 0 (some "7"))) 7).incompleted
      = (UserReports_get (applyOp (applyOp (initialStore [7] [5])
        (Op.create 7 { name := some "some task", category := some 5 }))
        (Op.assign 7 0 (some "7"))) 7).assigned :=
  C8_completed_plus_incompleted _ 7
    (Reachable.step _ _ (Reachable.step _ _ (Reachable.init [7] [5])))

/-!
Claim C4, corrected. The view resolves the raw user value inside a try
block catching only ValueError: an empty or otherwise non-integer string
resolves to null, but an absent key reaches the primary-key lookup as
None, which matches no user and fails with NotFound, and so does an
integer identifier that matches no user.
-/

/-- C4 (amended): for an existing task, an empty or otherwise non-integer
user identifier resolves to null, unassigning the task or giving the
no-op outcome when it is already unassigned; an absent identifier, a
negative integer identifier, and an integer identifier matching no real
user all fail with NotFound and leave the store unchanged. -/
theorem C4_assign_resolution (st : Store) (actor tid : Nat) (t : Task)
    (hget : getTask st tid = some t) :
    (∀ s, pyInt s = none → TaskAssign_resolve st (some s) = Except.ok none) ∧
    (∀ s, pyInt s = none → t.assignee = none →
      TaskAssign_post st actor tid (some s) = (HttpResult.noContent, st)) ∧
    (∀ s, pyInt s = none → t.assignee ≠ none →
      (TaskAssign_post st actor tid (some s)).1 = HttpResult.ok { t with assignee := none }) ∧
    (TaskAssign_post st actor tid none = (HttpResult.notFound, st)) ∧
    (∀ s n, pyInt s = some (Int.ofNat n) → st.users.contains n = false →
      TaskAssign_post st actor tid (some s) = (HttpResult.notFound, st)) ∧
    (∀ s k, pyInt s = some (Int.negSucc k) →
      TaskAssign_post st actor tid (some s) = (HttpResult.notFound, st)) := by
  have hres : ∀ s, pyInt s = none → TaskAssign_resolve st (some s) = Except.ok none := by
    intro s hs
    unfold TaskAssign_resolve
    dsimp only
    rw [hs]
  refine ⟨hres, ?_, ?_, ?_, ?_, ?_⟩
  · intro s hs ha
    unfold TaskAssign_post
    rw [hget, hres s hs]
    simp [ha]
  · intro s hs ha
    unfold TaskAssign_post
    rw [hget, hres s hs]
    have ha2 : (t.assignee == none) = false := by
      cases hc : t.assignee with
      | none => exact absurd hc ha
      | some v => rfl
    simp [ha2]
  · unfold TaskAssign_post
    rw [hget]
    rfl
  · intro s n hs hcont
    have hr : TaskAssign_resolve st (some s) = Except.error () := by
      unfold TaskAssign_resolve
      dsimp only
      rw [hs]
      simp only [hcont, Bool.false_eq_true, if_false]
    unfold TaskAssign_post
    rw [hget, hr]
  · intro s k hs
    have hr : TaskAssign_resolve st (some s) = Except.error () := by
      unfold TaskAssign_resolve
      dsimp only
      rw [hs]
    unfold TaskAssign_post
    rw [hget, hr]

/-- Concrete store for C4: one task, unassigned, single user 7. -/
def stC4 : Store :=
  (TaskListCreate_post (initialStore [7] [5]) 7
    { name := some "some task", category := some 5 }).2

/-- The single task of the C4 store. -/
def tC4 : Task :=
  { id := 0, name := "some task", description := "", category := 5,
    priority := PRIORITY_MEDIUM, status := STATUS_TODO, reporter := 7,
    assignee := none }

/-- C4 counterexample to the claim as stated: an absent identifier does
not resolve to null but fails with NotFound, and the non-empty identifier
xyz, which corresponds to no real user, does not fail with NotFound but
resolves to null and gives the no-op outcome on the unassigned task. -/
theorem C4_counterexample :
    TaskAssign_post stC4 7 0 none = (HttpResult.notFound, stC4) ∧
    TaskAssign_post stC4 7 0 (some "xyz") = (HttpResult.noContent, stC4) := by
  exact ⟨by decide, by decide⟩

/-- C4 witness: on the concrete store, the empty identifier resolves to
null and is a no-op on the unassigned task, while the absent identifier
and the unknown integer identifier 297 fail with NotFound. -/
theorem C4_assign_resolution_witness :
    TaskAssign_resolve stC4 (some "") = Except.ok none ∧
    TaskAssign_post stC4 7 0 (some "") = (HttpResult.noContent, stC4) ∧
    TaskAssign_post stC4 7 0 none = (HttpResult.notFound, stC4) ∧
    TaskAssign_post stC4 7 0 (some "297") = (HttpResult.notFound, stC4) := by
  have h := C4_assign_resolution stC4 7 0 tC4 (by decide)
  exact ⟨h.1 "" (by rfl), h.2.1 "" (by rfl) (by decide), h.2.2.2.1,
    h.2.2.2.2.1 "297" 297 (by rfl) (by decide)⟩

/-!
Claim C5. The report returns the four counts computed purely from the
current task rows: created, assigned, completed and incompleted.
-/

/-- C5: for every store and user, the routed report equals the four counts
over the current task rows: tasks reported by the user, tasks assigned to
the user, tasks assigned to the user with status DONE, and tasks assigned
to the user with status TODO or IN PROGRESS. The report reads nothing but
the task rows and writes nothing. -/
theorem C5_report_counts (st : Store) (u : Nat) :
    UserReports_get st u =
      { created := (st.tasks.filter (fun t => t.reporter == u)).length
        assigned := (st.tasks.filter (fun t => t.assignee == some u)).length
        completed := (st.tasks.filter (fun t =>
          t.assignee == some u && t.status == STATUS_DONE)).length
        incompleted := (st.tasks.filter (fun t =>
          t.assignee == some u
            && (t.status == STATUS_TODO || t.status == STATUS_IN_PROGRESS))).length } := by
  unfold UserReports_get
  dsimp only
  have h1 : (st.tasks.filter (fun t => t.assignee == some u)).filter
        (fun t => t.status == STATUS_DONE)
      = st.tasks.filter (fun t => t.assignee == some u && t.status == STATUS_DONE) := by
    rw [List.filter_filter]
    exact List.filter_congr (fun t _ => Bool.and_comm _ _)
  have h2 : (st.tasks.filter (fun t => t.assignee == some u)).filter
        (fun t => t.status == STATUS_TODO || t.status == STATUS_IN_PROGRESS)
      = st.tasks.filter (fun t =>
          t.assignee == some u && (t.status == STATUS_TODO || t.status == STATUS_IN_PROGRESS)) := by
    rw [List.filter_filter]
    exact List.filter_congr (fun t _ => Bool.and_comm _ _)
  rw [h1, h2]

end Taskr
